import Mathlib

/-!
# LogFlux collector subsystem — verification of the specification claims

Shallow embedding of the LogFlux multi-source log collection core
(`pkg/models/log_entry.go`, `internal/collector/sources/{file_reader,
syslog_receiver,http_receiver}.go`) and proofs settling the frozen claims
about it.

Go strings are modelled as `List Char` where byte/index arithmetic matters
(syslog parsing, file line splitting) and as Lean `String` for the small
closed sets of constants (levels, protocol names, error messages).
`time.Now()` is modelled by threading an opaque `now : Nat` argument into
every constructor that reads the clock.  Bounded Go channels are modelled
as a capacity plus a FIFO buffer list; the non-blocking
`select { case ch <- x: ... default: ... }` becomes a single `tryOffer`
attempt returning `Option`.
-/

namespace LogFlux

/-! ## Data model — `pkg/models/log_entry.go` -/

/-- `type LogLevel string` — the Go level type is a plain string. -/
abbrev LogLevel := String

/-- `LevelDebug LogLevel = "DEBUG"` -/
def LevelDebug : LogLevel := "DEBUG"

/-- `LevelInfo LogLevel = "INFO"` -/
def LevelInfo : LogLevel := "INFO"

/-- `LevelWarning LogLevel = "WARNING"` -/
def LevelWarning : LogLevel := "WARNING"

/-- `LevelError LogLevel = "ERROR"` -/
def LevelError : LogLevel := "ERROR"

/-- `LevelCritical LogLevel = "CRITICAL"` -/
def LevelCritical : LogLevel := "CRITICAL"

/-- `type LogEntry struct` — one log record.  `fields` is
`map[string]interface{}` in Go; the value type is a parameter `α` here
(the syslog source stores strings in it, the HTTP source stores decoded
JSON values).  Insertion order of the association list is the order of the
Go assignments. -/
structure LogEntry (α : Type) where
  id : String
  timestamp : Nat
  level : LogLevel
  source : String
  message : List Char
  fields : List (String × α)
deriving Repr, DecidableEq

/-- `func NewLogEntry() *LogEntry` — sets `Timestamp: time.Now()`,
`Level: LevelInfo`, `Fields: make(map[string]interface{})`; every other
field (in particular `ID`) is left at its Go zero value. -/
def NewLogEntry (α : Type) (now : Nat) : LogEntry α :=
  { id := ""
    timestamp := now
    level := LevelInfo
    source := ""
    message := []
    fields := [] }

/-! ## String helpers mirroring the `strings` package on `List Char` -/

/-- `strings.HasPrefix` on character lists. -/
def startsWith : List Char → List Char → Bool
  | _, [] => true
  | [], _ :: _ => false
  | c :: s, p :: ps => c = p && startsWith s ps

/-- `strings.Contains` on character lists. -/
def containsSub : List Char → List Char → Bool
  | [], sub => sub.isEmpty
  | c :: rest, sub => startsWith (c :: rest) sub || containsSub rest sub

/-- `strings.Index s (single char)` — index of the first occurrence,
`none` for Go's `-1`. -/
def goIndex : List Char → Char → Option Nat
  | [], _ => none
  | c :: rest, t => if c = t then some 0 else (goIndex rest t).map (· + 1)

/-- `strings.ToLower` on character lists. -/
def toLowerChars (s : List Char) : List Char := s.map Char.toLower

/-- Total byte length of a list of lines. -/
def sumLen (ls : List (List Char)) : Nat := (ls.map List.length).sum

/-- Concatenation of a list of lines. -/
def joinAll : List (List Char) → List Char
  | [] => []
  | l :: ls => l ++ joinAll ls

/-! ## Syslog source — `internal/collector/sources/syslog_receiver.go` -/

/-- Priority extraction step of `parseSyslogMessage` (the
`strings.HasPrefix(raw, "<")` block): if the message starts with `<` and
the first `>` sits at an index `endIdx` with `0 < endIdx < 10`, the Go
code takes `raw[1:endIdx]` as the priority and continues with
`raw[endIdx+1:]`; otherwise the message is left untouched.  Returns
`(priority?, remainder)`. -/
def stripPriority (raw : List Char) : Option (List Char) × List Char :=
  if raw.head? = some '<' then
    match goIndex raw '>' with
    | some endIdx =>
        if 0 < endIdx ∧ endIdx < 10 then
          (some ((raw.drop 1).take (endIdx - 1)), raw.drop (endIdx + 1))
        else (none, raw)
    | none => (none, raw)
  else (none, raw)

/-- Keyword severity switch of `parseSyslogMessage`, applied to the
lower-cased remainder. -/
def detectLevel (lowerMsg : List Char) : LogLevel :=
  if containsSub lowerMsg ("crit".toList) ||
     containsSub lowerMsg ("emerg".toList) ||
     containsSub lowerMsg ("alert".toList) then LevelCritical
  else if containsSub lowerMsg ("err".toList) ||
          containsSub lowerMsg ("error".toList) then LevelError
  else if containsSub lowerMsg ("warn".toList) then LevelWarning
  else if containsSub lowerMsg ("debug".toList) then LevelDebug
  else LevelInfo

/-- `func (sr *SyslogReceiver) parseSyslogMessage(raw string) *models.LogEntry`.
`proto` is `sr.protocol`; `now` models `time.Now()` inside `NewLogEntry`.
The code sets `Source` and `Message` first, then strips the priority into
`Fields["priority"]`, stores the remainder in `Fields["raw"]`, and runs
the keyword switch on `strings.ToLower(raw-after-stripping)`. -/
def parseSyslogMessage (proto : String) (now : Nat) (raw : List Char) :
    LogEntry (List Char) :=
  let e := NewLogEntry (List Char) now
  let pr := stripPriority raw
  let priorityFields : List (String × List Char) :=
    match pr.1 with
    | some p => [("priority", p)]
    | none => []
  { e with
    source := "syslog:" ++ proto
    message := raw
    fields := priorityFields ++ [("raw", pr.2)]
    level := detectLevel (toLowerChars pr.2) }

/-- Lifecycle-relevant state of a `SyslogReceiver`: its (lower-cased)
protocol string, the `running` flag, and whether `listener` was stored. -/
structure SyslogState where
  protocol : String
  running : Bool
  listenerSet : Bool
deriving Repr, DecidableEq

/-- `strings.ToLower` on Lean strings, via the character list. -/
def goToLower (s : String) : String := String.mk (toLowerChars s.data)

/-- `func NewSyslogReceiver(addr string, protocol string)` — stores
`strings.ToLower(protocol)`; flags start at their zero values. -/
def NewSyslogReceiver (protocol : String) : SyslogState :=
  { protocol := goToLower protocol, running := false, listenerSet := false }

/-- `func (sr *SyslogReceiver) Start(...) error`.  The environment's
success of address resolution + binding is abstracted as `bindOk`.
Faithful to the code order: the `running` flag is set to `true` before
the protocol switch, and is not rolled back when the switch or the bind
fails.  Returns `(error?, new state)`. -/
def SyslogReceiver.start (sr : SyslogState) (bindOk : Bool) :
    Option String × SyslogState :=
  if sr.running then (some ("syslog receiver already running"), sr)
  else
    let sr1 : SyslogState :=
      { protocol := sr.protocol, running := true, listenerSet := sr.listenerSet }
    if sr1.protocol = "udp" then
      if bindOk then (none, { sr1 with listenerSet := true })
      else (some ("failed to listen on UDP"), sr1)
    else if sr1.protocol = "tcp" then
      if bindOk then (none, { sr1 with listenerSet := true })
      else (some ("failed to listen on TCP"), sr1)
    else (some ("unsupported protocol: " ++ sr1.protocol), sr1)

/-! ## HTTP source — `internal/collector/sources/http_receiver.go`

The handlers are modelled from the point where the request body has been
read and JSON-decoded (method check and `json.Unmarshal` precede the
modelled code; a malformed body never reaches it).  The bounded output
channel `out chan<- *models.LogEntry` is a `Chan`, and the non-blocking
`select { case hr.out <- entry: ... default: ... }` is one `tryOffer`. -/

/-- A bounded Go channel: capacity and FIFO buffer. -/
structure Chan (α : Type) where
  cap : Nat
  buf : List α
deriving Repr

/-- Non-blocking send (`select`/`default`): `some` of the new channel when
there is room, `none` when the buffer is full. -/
def tryOffer (q : Chan α) (x : α) : Option (Chan α) :=
  if q.buf.length < q.cap then some { cap := q.cap, buf := q.buf ++ [x] }
  else none

/-- The decoded JSON body of one submission (`logData` in both handlers).
Absent JSON strings decode to `""`; an absent `fields` object decodes to a
`nil` map, modelled by `none`. -/
structure LogRequest (α : Type) where
  level : String
  message : List Char
  source : String
  fields : Option (List (String × α))
deriving Repr

/-- The `switch logData.Level` of `handleLogs` (lines 112–125). -/
def parseLevelLogs (s : String) : LogLevel :=
  if s = "DEBUG" then LevelDebug
  else if s = "INFO" then LevelInfo
  else if s = "WARNING" ∨ s = "WARN" then LevelWarning
  else if s = "ERROR" then LevelError
  else if s = "CRITICAL" ∨ s = "CRIT" then LevelCritical
  else LevelInfo

/-- The `switch logData.Level` of `handleBatch` (lines 180–193), duplicated
verbatim in the Go source. -/
def parseLevelBatch (s : String) : LogLevel :=
  if s = "DEBUG" then LevelDebug
  else if s = "INFO" then LevelInfo
  else if s = "WARNING" ∨ s = "WARN" then LevelWarning
  else if s = "ERROR" then LevelError
  else if s = "CRITICAL" ∨ s = "CRIT" then LevelCritical
  else LevelInfo

/-- Record construction inside `handleLogs`: `NewLogEntry`, message and
source (defaulting to `"http"`), the level switch, then the `Fields`
override when the decoded map is non-nil. -/
def buildEntryLogs (now : Nat) (req : LogRequest α) : LogEntry α :=
  let e := NewLogEntry α now
  let e := { e with
    message := req.message
    source := if req.source = "" then "http" else req.source
    level := parseLevelLogs req.level }
  match req.fields with
  | some f => { e with fields := f }
  | none => e

/-- Record construction inside the `handleBatch` loop body (duplicated in
the Go source). -/
def buildEntryBatch (now : Nat) (req : LogRequest α) : LogEntry α :=
  let e := NewLogEntry α now
  let e := { e with
    message := req.message
    source := if req.source = "" then "http" else req.source
    level := parseLevelBatch req.level }
  match req.fields with
  | some f => { e with fields := f }
  | none => e

/-- Outcome of `handleLogs`: HTTP 202 with the JSON `id` field, or
HTTP 503 (`"Channel full"`). -/
inductive LogsResult where
  | accepted (id : String)
  | serviceUnavailable
deriving Repr, DecidableEq

/-- HTTP status code of a `LogsResult`. -/
def LogsResult.status : LogsResult → Nat
  | .accepted _ => 202
  | .serviceUnavailable => 503

/-- `func (hr *HTTPReceiver) handleLogs` after decoding: build the entry,
make one non-blocking send; on success answer 202 with
`{"status":"accepted","id":entry.ID}`, on a full channel answer 503 and
leave the channel untouched. -/
def handleLogs (now : Nat) (req : LogRequest α) (q : Chan (LogEntry α)) :
    LogsResult × Chan (LogEntry α) :=
  let entry := buildEntryLogs now req
  match tryOffer q entry with
  | some q' => (.accepted entry.id, q')
  | none => (.serviceUnavailable, q)

/-- The JSON body of the `/batch` 202 response:
`{"status":"accepted","total":...,"accepted":...}`. -/
structure BatchResponse where
  status : Nat
  total : Nat
  accepted : Nat
deriving Repr, DecidableEq

/-- The `for _, logData := range logs` loop of `handleBatch`: offer each
built entry non-blockingly, counting the accepted ones; full-channel
refusals are skipped silently. -/
def batchLoop (now : Nat) :
    List (LogRequest α) → Chan (LogEntry α) → Nat → Chan (LogEntry α) × Nat
  | [], q, acc => (q, acc)
  | r :: rest, q, acc =>
      let e := buildEntryBatch now r
      match tryOffer q e with
      | some q' => batchLoop now rest q' (acc + 1)
      | none => batchLoop now rest q acc

/-- `func (hr *HTTPReceiver) handleBatch` after decoding a well-formed
array: run the loop, then always answer 202 with the submitted and
accepted counts. -/
def handleBatch (now : Nat) (reqs : List (LogRequest α))
    (q : Chan (LogEntry α)) : BatchResponse × Chan (LogEntry α) :=
  let r := batchLoop now reqs q 0
  ({ status := 202, total := reqs.length, accepted := r.2 }, r.1)

/-! ## File-Tail source — `internal/collector/sources/file_reader.go` -/

/-- Lifecycle-relevant state of a `FileReader`: the byte offset (`int64`,
only ever incremented from 0, hence `Nat`) and the `running`/open-handle
flags.  `pollPeriod` is fixed at construction and never read by the
modelled logic. -/
structure FileReaderState where
  offset : Nat
  running : Bool
  fileOpen : Bool
deriving Repr, DecidableEq

/-- `func NewFileReader(filepath string)` — offset 0, flags at their zero
values. -/
def NewFileReader : FileReaderState :=
  { offset := 0, running := false, fileOpen := false }

/-- `func (fr *FileReader) Start(...) error`.  Whether `os.Open` succeeds
is abstracted as `fileExists`.  Faithful to the code order: `running` is
set to `true` before the open and is not rolled back when the open fails.
Returns `(error?, new state)`. -/
def FileReader.start (fr : FileReaderState) (fileExists : Bool) :
    Option String × FileReaderState :=
  if fr.running then (some ("file reader already running"), fr)
  else
    let fr1 : FileReaderState :=
      { offset := fr.offset, running := true, fileOpen := fr.fileOpen }
    if fileExists then (none, { fr1 with fileOpen := true })
    else (some ("failed to open file"), fr1)

/-- `func (fr *FileReader) Stop() error` — no-op when not running,
otherwise clear `running` and close the file. -/
def FileReader.stop (fr : FileReaderState) : FileReaderState :=
  if fr.running then { fr with running := false, fileOpen := false }
  else fr

/-- `func (fr *FileReader) GetOffset() int64`. -/
def FileReader.getOffset (fr : FileReaderState) : Nat := fr.offset

/-- Net effect of the inner `for { line, err := reader.ReadString('\n') … }`
loop of `readLoop` on the bytes available past the reader's position:
each complete `'\n'`-terminated line is emitted (`acc` is the bytes
`bufio` has accumulated for the current line); when `ReadString` hits
`io.EOF` it has already consumed the accumulated partial bytes and the
code discards them (`break`), so a trailing newline-less remainder
produces no line and is not kept. -/
def collectLines : List Char → List Char → List (List Char)
  | [], _acc => []
  | c :: rest, acc =>
      if c = '\n' then (acc ++ [c]) :: collectLines rest []
      else collectLines rest (acc ++ [c])

/-- The trailing newline-less remainder that the `io.EOF` branch of
`readLoop` consumes and discards. -/
def collectRest : List Char → List Char → List Char
  | [], acc => acc
  | c :: rest, acc =>
      if c = '\n' then collectRest rest []
      else collectRest rest (acc ++ [c])

/-- One tick of `readLoop` over a file whose current content is
`content`, with the reader's underlying file position at `pos` and the
stored offset at `off`: all available bytes are consumed (the reader's
position moves to the end of the file), the complete lines among them are
emitted in order, and `fr.offset` advances by `len(line)` for each emitted
line — and only for those. -/
def FileReader.tick (content : List Char) (pos off : Nat) :
    List (List Char) × Nat × Nat :=
  let lines := collectLines (content.drop pos) []
  (lines, content.length, off + sumLen lines)

/-- A run of successive ticks: `snapshots` lists the file's content as
seen at each tick (the file only grows between ticks, but the definition
does not need that).  Returns all emitted lines in order, the final
reader position and the final offset. -/
def runTicks : List (List Char) → Nat → Nat → List (List Char) × Nat × Nat
  | [], pos, off => ([], pos, off)
  | s :: rest, pos, off =>
      let t := FileReader.tick s pos off
      let r := runTicks rest t.2.1 t.2.2
      (t.1 ++ r.1, r.2.1, r.2.2)

/-- The non-`io.EOF` read-error branch of `readLoop` (lines 84–86): the
error is printed and the loop `return`s, upon which the deferred
`fr.Stop()` runs.  Returns the state after the branch and whether the
read loop keeps running (`false`: it has terminated). -/
def FileReader.onReadError (fr : FileReaderState) : FileReaderState × Bool :=
  (FileReader.stop fr, false)

/-! ## Definitions taken from the specification's words

These two functions are written from the spec text (not from the Go
source) and are compared against the code-derived functions in the
refinement claims C5 and C6. -/

/-- Spec §8: "For all valid level strings in {DEBUG, INFO, WARNING, WARN,
ERROR, CRITICAL, CRIT}, the HTTP ingestion endpoint maps them to the
corresponding enumeration value; any other string maps to INFO." -/
def specLevelMap (s : String) : LogLevel :=
  if s = "DEBUG" then LevelDebug
  else if s = "INFO" then LevelInfo
  else if s = "WARNING" then LevelWarning
  else if s = "WARN" then LevelWarning
  else if s = "ERROR" then LevelError
  else if s = "CRITICAL" then LevelCritical
  else if s = "CRIT" then LevelCritical
  else LevelInfo

/-- Spec §4.3: "Severity inference is keyword-based and checked in this
fixed precedence order against the lower-cased remainder: crit/emerg/alert
→ CRITICAL; else err/error → ERROR; else warn → WARNING; else debug →
DEBUG; else → INFO." -/
def specSeverity (lowerMsg : List Char) : LogLevel :=
  if containsSub lowerMsg ("crit".toList) then LevelCritical
  else if containsSub lowerMsg ("emerg".toList) then LevelCritical
  else if containsSub lowerMsg ("alert".toList) then LevelCritical
  else if containsSub lowerMsg ("err".toList) then LevelError
  else if containsSub lowerMsg ("error".toList) then LevelError
  else if containsSub lowerMsg ("warn".toList) then LevelWarning
  else if containsSub lowerMsg ("debug".toList) then LevelDebug
  else LevelInfo

/-! ## Helper lemmas -/

/-- The emitted complete lines followed by the discarded trailing
remainder reconstruct the scanned bytes (with the accumulated partial
line `acc` in front). -/
theorem collectLines_join (s : List Char) :
    ∀ acc, joinAll (collectLines s acc) ++ collectRest s acc = acc ++ s := by
  induction s with
  | nil => intro acc; simp [collectLines, collectRest, joinAll]
  | cons c rest ih =>
      intro acc
      by_cases hc : c = '\n'
      · subst hc
        have h2 := ih []
        simp only [List.nil_append] at h2
        simp [collectLines, collectRest, joinAll, List.append_assoc, h2]
      · simp only [collectLines, collectRest, if_neg hc]
        rw [ih (acc ++ [c])]
        simp

/-- `sumLen` is the length of the concatenation. -/
theorem sumLen_eq_length_join (ls : List (List Char)) :
    sumLen ls = (joinAll ls).length := by
  induction ls with
  | nil => simp [sumLen, joinAll]
  | cons l ls ih => simp [sumLen, joinAll] at ih ⊢; omega

/-- `goIndex` on a list whose first occurrence of `c` follows a
`c`-free block `pre` finds exactly the index `pre.length`. -/
theorem goIndex_append (c : Char) (post : List Char) :
    ∀ pre : List Char, c ∉ pre → goIndex (pre ++ c :: post) c = some pre.length := by
  intro pre
  induction pre with
  | nil => intro _; simp [goIndex]
  | cons p ps ih =>
      intro hmem
      have hp : ¬ p = c := by
        intro h; exact hmem (by simp [h])
      have hps : c ∉ ps := fun h => hmem (List.mem_cons_of_mem _ h)
      have hstep : goIndex ((p :: ps) ++ c :: post) c
          = (goIndex (ps ++ c :: post) c).map (· + 1) := by
        simp [goIndex, hp]
      rw [hstep, ih hps]
      rfl

/-- Offsets accepted by `batchLoop`: the channel grows by exactly the
number of accepted records. -/
theorem batchLoop_len {α : Type} (now : Nat) :
    ∀ (reqs : List (LogRequest α)) (q : Chan (LogEntry α)) (acc : Nat),
      (batchLoop now reqs q acc).1.buf.length + acc =
        (batchLoop now reqs q acc).2 + q.buf.length := by
  intro reqs
  induction reqs with
  | nil => intro q acc; simp [batchLoop]; omega
  | cons r rest ih =>
      intro q acc
      cases hq : tryOffer q (buildEntryBatch now r) with
      | none => simp only [batchLoop, hq]; exact ih q acc
      | some q' =>
          have hlen : q'.buf.length = q.buf.length + 1 := by
            unfold tryOffer at hq
            split at hq
            · cases hq; simp
            · cases hq
          have h2 := ih q' (acc + 1)
          simp only [batchLoop, hq]
          omega

/-- `batchLoop` accepts at most one record per submitted item. -/
theorem batchLoop_acc_le {α : Type} (now : Nat) :
    ∀ (reqs : List (LogRequest α)) (q : Chan (LogEntry α)) (acc : Nat),
      (batchLoop now reqs q acc).2 ≤ acc + reqs.length := by
  intro reqs
  induction reqs with
  | nil => intro q acc; simp [batchLoop]
  | cons r rest ih =>
      intro q acc
      cases hq : tryOffer q (buildEntryBatch now r) with
      | none =>
          have h2 := ih q acc
          simp only [batchLoop, hq, List.length_cons]
          omega
      | some q' =>
          have h2 := ih q' (acc + 1)
          simp only [batchLoop, hq, List.length_cons]
          omega

/-- The code's keyword switch agrees with the spec's precedence list. -/
theorem detectLevel_eq_spec (m : List Char) : detectLevel m = specSeverity m := by
  unfold detectLevel specSeverity
  split_ifs <;> simp_all

/-! ## Claim theorems -/

/-- C1: the claim says a failed `Start` (SetupError) leaves the lifecycle
state unchanged, so a later `Start` is not rejected as already running.
The code sets `running = true` before setup and never rolls it back: after
`FileReader.Start` fails on a missing file, `running` is `true` and the
next `Start` is rejected with "already running"; the same happens for a
`SyslogReceiver` with an unsupported protocol string.  This theorem
evaluates the code at those failing inputs, exhibiting the divergence. -/
theorem C1_failed_start_leaves_running_flag :
    (FileReader.start NewFileReader false
      = (some ("failed to open file"),
         { offset := 0, running := true, fileOpen := false })) ∧
    ((FileReader.start { offset := 0, running := true, fileOpen := false } true).1
      = some ("file reader already running")) ∧
    (SyslogReceiver.start (NewSyslogReceiver ("icmp")) true
      = (some ("unsupported protocol: icmp"),
         { protocol := "icmp", running := true, listenerSet := false })) ∧
    ((SyslogReceiver.start
        { protocol := "icmp", running := true, listenerSet := false } true).1
      = some ("syslog receiver already running")) := by decide

/-- C2: the claim says a trailing partial line is left unconsumed and the
complete line (all of its bytes) is emitted after its newline arrives.
In the code `bufio.ReadString` has already consumed the partial bytes when
it reports `io.EOF`, and the `break` discards them.  At the failing input
(tick 1 sees `"hello"`, tick 2 sees `"hello world\n"`) the run emits the
single record `" world\n"` — not `"hello world\n"` — and the offset
advances only by 7. -/
theorem C2_partial_line_consumed_and_lost :
    runTicks [("hello".toList), ("hello world\n".toList)] 0 0
      = ([(" world\n".toList)], 12, 7) ∧
    (" world\n".toList) ≠ ("hello world\n".toList) := by decide

/-- C3: the claim (and the code's own comment "Log error but continue")
says a non-EOF read error is logged and the loop continues with the
source still running.  The code instead `return`s, which fires the
deferred `fr.Stop()`: evaluated on a running reader, the error branch
reports the loop as terminated (`false`) and leaves `running = false`. -/
theorem C3_read_error_terminates_loop :
    FileReader.onReadError { offset := 0, running := true, fileOpen := true }
      = ({ offset := 0, running := false, fileOpen := false }, false) := by decide

/-- C4 counterexample: the claim says every record gets a non-empty id at
creation and the 202 response reports it.  `NewLogEntry` never assigns
`ID`, so the id is the empty string, and the 202 response to POST /logs
carries that empty id. -/
theorem C4_counterexample_id_is_empty :
    (NewLogEntry Unit 0).id = "" ∧
    (handleLogs 0
        ({ level := "ERROR", message := ("m".toList), source := "", fields := none }
          : LogRequest Unit)
        { cap := 10, buf := [] }).1
      = .accepted ("") := by decide

/-- C4 (amended): the record constructor leaves the id at the empty
string — it assigns only timestamp, level INFO and an empty fields map —
and the HTTP 202 response to POST /logs reports that (always empty) id. -/
theorem C4_id_empty_and_reported (α : Type) (now : Nat) (req : LogRequest α)
    (q : Chan (LogEntry α)) :
    (NewLogEntry α now).id = "" ∧
    (buildEntryLogs now req).id = "" ∧
    ((handleLogs now req q).1 = .accepted ("") ∨
     (handleLogs now req q).1 = .serviceUnavailable) := by
  have hid : (buildEntryLogs now req).id = "" := by
    unfold buildEntryLogs NewLogEntry
    cases req.fields <;> simp
  refine ⟨rfl, hid, ?_⟩
  unfold handleLogs
  cases h : tryOffer q (buildEntryLogs now req) with
  | none => simp [h]
  | some q' => simp [h, hid]

/-- C5: on both HTTP endpoints (`/logs` and `/batch`) the submitted level
string maps as the spec's table demands — DEBUG→DEBUG, INFO→INFO,
WARNING/WARN→WARNING, ERROR→ERROR, CRITICAL/CRIT→CRITICAL, and every
other string (including the empty string produced by an absent field, and
differently-cased strings such as "warn") maps to INFO. -/
theorem C5_level_mapping_both_endpoints (s : String) :
    parseLevelLogs s = specLevelMap s ∧
    parseLevelBatch s = specLevelMap s ∧
    parseLevelLogs ("") = LevelInfo ∧
    parseLevelBatch ("warn") = LevelInfo := by
  refine ⟨?_, ?_, by decide, by decide⟩ <;>
    · simp only [parseLevelLogs, parseLevelBatch, specLevelMap]
      split_ifs <;> simp_all

/-- C6: the syslog severity is inferred from the lower-cased remainder
(after priority stripping) with the spec's fixed precedence —
crit/emerg/alert → CRITICAL, else err/error → ERROR, else warn → WARNING,
else debug → DEBUG, else INFO; in particular a message containing both
"critical" and "error" classifies as CRITICAL and a keyword-free message
as INFO. -/
theorem C6_severity_precedence :
    (∀ (proto : String) (now : Nat) (raw : List Char),
        (parseSyslogMessage proto now raw).level
          = specSeverity (toLowerChars (stripPriority raw).2)) ∧
    (parseSyslogMessage "udp" 0 ("Critical error occurred".toList)).level
      = LevelCritical ∧
    (parseSyslogMessage "udp" 0 ("hello world".toList)).level = LevelInfo := by
  refine ⟨fun proto now raw => ?_, by decide, by decide⟩
  show detectLevel (toLowerChars (stripPriority raw).2) = _
  exact detectLevel_eq_spec _

/-- C10: the emitted syslog record's `message` field preserves the
complete raw input verbatim — including any leading `<priority>` tag —
while the priority tag is stripped only in the `fields["raw"]` value,
which holds the remainder after stripping. -/
theorem C10_message_preserved_verbatim :
    (∀ (proto : String) (now : Nat) (raw : List Char),
        (parseSyslogMessage proto now raw).message = raw ∧
        List.lookup ("raw") (parseSyslogMessage proto now raw).fields
          = some ((stripPriority raw).2)) ∧
    ((parseSyslogMessage "udp" 0 ("<34>Test message".toList)).message
        = ("<34>Test message".toList) ∧
     List.lookup ("raw")
         (parseSyslogMessage "udp" 0 ("<34>Test message".toList)).fields
       = some (("Test message".toList))) := by
  refine ⟨fun proto now raw => ⟨rfl, ?_⟩, by decide, by decide⟩
  show List.lookup ("raw")
      ((match (stripPriority raw).1 with
        | some p => [(("priority" : String), p)]
        | none => []) ++ [("raw", (stripPriority raw).2)]) = _
  cases h : (stripPriority raw).1 <;> simp [List.lookup]

/-- `stripPriority` on a message of the shape `<pre>post` (with `>`-free
`pre` of at most 8 characters, so the `>` sits within the first 10
characters) extracts `pre` and leaves `post`. -/
theorem stripPriority_pattern (pre post : List Char) (hmem : '>' ∉ pre)
    (hlen : pre.length ≤ 8) :
    stripPriority ('<' :: pre ++ '>' :: post) = (some pre, post) := by
  have h1 : '>' ∉ ('<' :: pre) := by
    intro h
    rcases List.mem_cons.mp h with h | h
    · exact absurd h (by decide)
    · exact hmem h
  have hidx : goIndex ('<' :: (pre ++ '>' :: post)) '>' = some (pre.length + 1) := by
    have h2 := goIndex_append '>' post ('<' :: pre) h1
    rw [List.cons_append] at h2
    simpa using h2
  rw [List.cons_append]
  unfold stripPriority
  rw [if_pos (by simp : ('<' :: (pre ++ '>' :: post)).head? = some '<')]
  simp only [hidx]
  rw [if_pos (by omega : 0 < pre.length + 1 ∧ pre.length + 1 < 10)]
  have htake : (('<' :: (pre ++ '>' :: post)).drop 1).take (pre.length + 1 - 1) = pre := by
    simp [List.take_left]
  have hdrop : ('<' :: (pre ++ '>' :: post)).drop (pre.length + 1 + 1) = post := by
    have hsplit : pre ++ '>' :: post = (pre ++ ['>']) ++ post := by simp
    simp only [List.drop_succ_cons, hsplit]
    have hl : (pre ++ ['>']).length = pre.length + 1 := by simp
    rw [← hl, List.drop_left]
  rw [htake, hdrop]

/-- `stripPriority` leaves any message untouched that does not begin with
`<` with its first `>` within the first 10 characters. -/
theorem stripPriority_other (raw : List Char)
    (h : ¬ (raw.head? = some '<' ∧ ∃ j, goIndex raw '>' = some j ∧ j < 10)) :
    stripPriority raw = (none, raw) := by
  unfold stripPriority
  by_cases hh : raw.head? = some '<'
  · rw [if_pos hh]
    cases hj : goIndex raw '>' with
    | none => rfl
    | some j =>
        have hc : ¬ (0 < j ∧ j < 10) := fun hc => h ⟨hh, j, hj, hc.2⟩
        simp [hc]
  · rw [if_neg hh]

/-- C7: for a message of the form `<pre>post` whose first `>` lies within
the first 10 characters, the parser stores `pre` as `fields["priority"]`
and `post` verbatim as `fields["raw"]`; the concrete input
`"<34>Test message"` yields priority `"34"` and raw `"Test message"`;
any other message keeps the whole message as `fields["raw"]` with no
priority field. -/
theorem C7_priority_extraction :
    (∀ pre post : List Char, '>' ∉ pre → pre.length ≤ 8 →
        List.lookup ("priority")
            (parseSyslogMessage "udp" 0 ('<' :: pre ++ '>' :: post)).fields
          = some pre ∧
        List.lookup ("raw")
            (parseSyslogMessage "udp" 0 ('<' :: pre ++ '>' :: post)).fields
          = some post) ∧
    ((parseSyslogMessage "udp" 0 ("<34>Test message".toList)).fields
        = [("priority", ("34".toList)), ("raw", ("Test message".toList))]) ∧
    (∀ raw : List Char,
        ¬ (raw.head? = some '<' ∧ ∃ j, goIndex raw '>' = some j ∧ j < 10) →
        (parseSyslogMessage "udp" 0 raw).fields = [("raw", raw)]) := by
  refine ⟨fun pre post hmem hlen => ?_, by decide, fun raw h => ?_⟩
  · have hs := stripPriority_pattern pre post hmem hlen
    rw [List.cons_append] at hs
    constructor <;> simp [parseSyslogMessage, hs, List.lookup]
  · have hs := stripPriority_other raw h
    simp [parseSyslogMessage, hs]

/-- Witness for C7: instantiates the general parts at
`pre = "34"`, `post = "Test message"` and at the priority-free message
`"no tag here"`, discharging the hypotheses concretely. -/
theorem C7_priority_extraction_witness :
    List.lookup ("priority")
        (parseSyslogMessage "udp" 0
          ('<' :: ("34".toList) ++ '>' :: ("Test message".toList))).fields
      = some ("34".toList) ∧
    (parseSyslogMessage "udp" 0 ("no tag here".toList)).fields
      = [("raw", ("no tag here".toList))] := by
  refine ⟨(C7_priority_extraction.1 ("34".toList) ("Test message".toList)
      (by decide) (by decide)).1, ?_⟩
  refine C7_priority_extraction.2.2 ("no tag here".toList) ?_
  intro hcond
  exact absurd hcond.1 (by decide)

/-- `sumLen` distributes over concatenation. -/
theorem sumLen_append (a b : List (List Char)) :
    sumLen (a ++ b) = sumLen a + sumLen b := by
  simp [sumLen]

/-- C8 counterexample: the claim says restarting from `GetOffset()` never
re-emits already-read lines.  When a poll ends in a partial line its bytes
are consumed without advancing the offset (see C2): polling `"ab"` and
then `"abc\nd\n"` emits `"c\n"` and `"d\n"` with final offset 4, yet a
restart that seeks to offset 4 reads and emits `"d\n"` again. -/
theorem C8_counterexample_restart_reemits :
    (runTicks [("ab".toList), ("abc\nd\n".toList)] 0 0).1
      = [("c\n".toList), ("d\n".toList)] ∧
    (runTicks [("ab".toList), ("abc\nd\n".toList)] 0 0).2.2 = 4 ∧
    (FileReader.tick ("abc\nd\n".toList) 4 4).1 = [("d\n".toList)] ∧
    ("d\n".toList) ∈ (runTicks [("ab".toList), ("abc\nd\n".toList)] 0 0).1 := by
  decide

/-- C8 (amended): `GetOffset` always equals the initial offset plus the
total byte length of the emitted lines — the offset advances by exactly
`len(line)` per emitted line, newline included — and restarting from that
offset reads only data past the already-consumed lines, provided the data
available at each poll ended at a line boundary (when a poll ends in a
partial line, those bytes are consumed without advancing the offset and a
restart can re-emit a line, as the counterexample shows). -/
theorem C8_offset_exact_and_clean_restart :
    (∀ (snapshots : List (List Char)) (pos off : Nat),
        (runTicks snapshots pos off).2.2
          = off + sumLen (runTicks snapshots pos off).1) ∧
    (∀ fr : FileReaderState, FileReader.getOffset fr = fr.offset) ∧
    (∀ s t : List Char, collectRest s [] = [] →
        (FileReader.tick s 0 0).2.2 = sumLen (FileReader.tick s 0 0).1 ∧
        joinAll (FileReader.tick s 0 0).1 = s ∧
        (FileReader.tick (s ++ t) (FileReader.tick s 0 0).2.2
            (FileReader.tick s 0 0).2.2).1 = collectLines t []) := by
  refine ⟨?_, fun fr => rfl, ?_⟩
  · intro snapshots
    induction snapshots with
    | nil => intro pos off; simp [runTicks, sumLen]
    | cons s rest ih =>
        intro pos off
        simp only [runTicks, FileReader.tick]
        have h2 := ih s.length (off + sumLen (collectLines (s.drop pos) []))
        rw [sumLen_append]
        omega
  · intro s t hclean
    have hjoin : joinAll (collectLines s []) = s := by
      have h2 := collectLines_join s []
      rw [hclean] at h2
      simpa using h2
    have hlines : (FileReader.tick s 0 0).1 = collectLines s [] := by
      simp [FileReader.tick]
    have hoff : (FileReader.tick s 0 0).2.2 = sumLen (collectLines s []) := by
      simp [FileReader.tick]
    have hlen : sumLen (collectLines s []) = s.length := by
      rw [sumLen_eq_length_join, hjoin]
    refine ⟨by rw [hoff, hlines], by rw [hlines, hjoin], ?_⟩
    rw [hoff, hlen]
    have hdrop : (s ++ t).drop s.length = t := List.drop_left s t
    simp [FileReader.tick, hdrop]

/-- Witness for C8: instantiates the clean-restart part at the fully
line-terminated content `"a\nbc\n"` with appended data `"d\n"`. -/
theorem C8_clean_restart_witness :
    collectRest ("a\nbc\n".toList) [] = [] ∧
    joinAll (FileReader.tick ("a\nbc\n".toList) 0 0).1 = ("a\nbc\n".toList) ∧
    (FileReader.tick (("a\nbc\n".toList) ++ ("d\n".toList))
        (FileReader.tick ("a\nbc\n".toList) 0 0).2.2
        (FileReader.tick ("a\nbc\n".toList) 0 0).2.2).1
      = collectLines ("d\n".toList) [] := by
  have h := C8_offset_exact_and_clean_restart.2.2
    ("a\nbc\n".toList) ("d\n".toList) (by decide)
  exact ⟨by decide, h.2.1, h.2.2⟩

/-- C9: both HTTP handlers offer records to the queue with one
non-blocking attempt.  `/logs`: when the queue has room the record is
appended and the answer is 202 with the record's id; when it is full
nothing is enqueued and the answer is 503.  `/batch` on a well-formed
array of n items always answers 202 with `total = n` and `accepted` =
the number of records actually enqueued (queue growth equals `accepted`),
with `accepted ≤ n` — refused items are silently dropped from the
count. -/
theorem C9_nonblocking_queue_offer :
    (∀ (α : Type) (now : Nat) (req : LogRequest α) (q : Chan (LogEntry α)),
        q.buf.length < q.cap →
          handleLogs now req q
            = (.accepted (buildEntryLogs now req).id,
               { cap := q.cap, buf := q.buf ++ [buildEntryLogs now req] })) ∧
    (∀ (α : Type) (now : Nat) (req : LogRequest α) (q : Chan (LogEntry α)),
        ¬ q.buf.length < q.cap →
          handleLogs now req q = (.serviceUnavailable, q)) ∧
    ((∀ id : String, (LogsResult.accepted id).status = 202) ∧
     LogsResult.status .serviceUnavailable = 503) ∧
    (∀ (α : Type) (now : Nat) (reqs : List (LogRequest α))
        (q : Chan (LogEntry α)),
        (handleBatch now reqs q).1.status = 202 ∧
        (handleBatch now reqs q).1.total = reqs.length ∧
        (handleBatch now reqs q).1.accepted + q.buf.length
          = (handleBatch now reqs q).2.buf.length ∧
        (handleBatch now reqs q).1.accepted ≤ reqs.length) := by
  refine ⟨fun α now req q h => ?_, fun α now req q h => ?_,
    ⟨fun id => rfl, rfl⟩, fun α now reqs q => ?_⟩
  · simp [handleLogs, tryOffer, h]
  · simp [handleLogs, tryOffer, h]
  · have hl := batchLoop_len now reqs q 0
    have ha := batchLoop_acc_le now reqs q 0
    refine ⟨rfl, rfl, ?_, ?_⟩
    · simp only [handleBatch]
      omega
    · simp only [handleBatch]
      omega

/-- Witness for C9: a queue with one free slot accepts the record with a
202, and a zero-capacity queue refuses it with a 503 and stays
unchanged. -/
theorem C9_nonblocking_queue_offer_witness :
    handleLogs 0
        ({ level := "INFO", message := [], source := "", fields := none }
          : LogRequest Unit)
        { cap := 1, buf := [] }
      = (.accepted (buildEntryLogs 0
            ({ level := "INFO", message := [], source := "", fields := none }
              : LogRequest Unit)).id,
         { cap := 1,
           buf := [] ++ [buildEntryLogs 0
             ({ level := "INFO", message := [], source := "", fields := none }
               : LogRequest Unit)] }) ∧
    handleLogs 0
        ({ level := "INFO", message := [], source := "", fields := none }
          : LogRequest Unit)
        { cap := 0, buf := [] }
      = (.serviceUnavailable, { cap := 0, buf := [] }) := by
  exact ⟨C9_nonblocking_queue_offer.1 Unit 0 _ _ (by decide),
         C9_nonblocking_queue_offer.2.1 Unit 0 _ _ (by decide)⟩

end LogFlux
